import Mathlib

/-!
Verification of the finance-tracker categorization and ingestion pipeline.

The development shallowly embeds the two source modules:

* `categories.py` — the keyword rule table (`CATEGORIES`), the classifier
  `categorize_transaction`, and `get_category_list`;
* `app.py` — the ingestion pipeline: `load_xlsx`, `load_csv`,
  `process_data`, `load_and_process_files`, and the module-level UI flow.

Python strings are modelled by Lean `String`; `str.lower` is modelled for
the ASCII range (all rule-table keywords and transaction-type tags in this
repository are ASCII).  Pandas data frames are modelled as a list of column
names plus rows of cells, where a cell is `none` for NaN or carries a
string or a rational number (amounts are exact decimals in bank exports,
so `Rat` is used in place of Python floats; none of the verified
properties depend on float rounding).
-/

namespace FinanceTracker

/-- ASCII model of Python `str.lower` on a single character:
uppercase A–Z shift by 32, all other characters unchanged. -/
def pyLowerChar (c : Char) : Char :=
  if 'A' ≤ c ∧ c ≤ 'Z' then Char.ofNat (c.toNat + 32) else c

/-- ASCII model of Python `str.lower`. -/
def pyLower (s : String) : String :=
  ⟨s.data.map pyLowerChar⟩

/-- `listOccurs needle hay` models Python `needle in hay` on character
lists: the needle occurs as a contiguous run inside the haystack. -/
def listOccurs : List Char → List Char → Bool
  | n, [] => n.isEmpty
  | n, c :: t => n.isPrefixOf (c :: t) || listOccurs n t

/-- Python substring test `needle in hay` on strings. -/
def occursIn (needle hay : String) : Bool :=
  listOccurs needle.data hay.data

/-- Python `s.endswith(suffix)`. -/
def strEndsWith (s suffix : String) : Bool :=
  suffix.data.reverse.isPrefixOf s.data.reverse

/-- The rule table of `categories.py` (`CATEGORIES`), in source order:
category name paired with its ordered keyword list. -/
def CATEGORIES : List (String × List String) :=
  [ ("Transport", ["uber", "lime", "fuel", "z energy", "bp", "caltex", "mobil", "taxi", "at hop", "bus", "train"]),
    ("Groceries", ["countdown", "pak n save", "new world", "supermarket", "woolworths", "fresh choice", "four square"]),
    ("Insurance", ["insurance", "tower", "state", "aia", "southern cross", "nib", "rdi finance", "rdl premium finance"]),
    ("Investments", ["sharesies", "hatch", "investnow", "smartshares", "simplicity"]),
    ("Utilities", ["power", "electric", "water", "internet", "vodafone", "spark", "2degrees", "mercury", "genesis", "contact energy", "slingshot"]),
    ("Entertainment", ["netflix", "spotify", "disney", "apple music", "youtube", "cinema", "movie", "ticketmaster"]),
    ("Dining", ["restaurant", "cafe", "mcdonald", "uber eats", "menulog", "delivereasy", "burger", "pizza", "kfc", "wendy"]),
    ("Pet", ["dog", "vet", "pet", "animates", "petstock"]),
    ("Healthcare", ["pharmacy", "chemist", "doctor", "medical", "hospital", "dentist", "optometrist"]),
    ("Shopping", ["amazon", "warehouse", "kmart", "target", "farmers", "briscoes", "rebel sport"]),
    ("Subscriptions", ["subscription", "monthly", "annual fee", "membership"]),
    ("Education", ["school", "university", "course", "tuition", "book"]),
    ("Holiday", ["holiday"]) ]

/-- The inner keyword loop of `categorize_transaction`: does some keyword
of the list occur (after lowercasing) in the search text? -/
def scanKeywords (kws : List String) (txt : String) : Bool :=
  kws.any (fun kw => occursIn (pyLower kw) txt)

/-- The outer loop over `CATEGORIES.items()`: the first category whose
keyword list matches the search text, scanning in table order. -/
def findCat : List (String × List String) → String → Option String
  | [], _ => none
  | e :: rest, txt => if scanKeywords e.2 txt then some e.1 else findCat rest txt

/-- `categorize_transaction(details, particulars, transaction_type)` from
`categories.py`.  The Python guards `transaction_type and …` test string
truthiness, modelled as `≠ ""`; `f"{details or ''} {particulars or ''}"`
is the identity on strings, so the search text is the single-space
concatenation, lowercased. -/
def categorize_transaction (details particulars transaction_type : String) : String :=
  if transaction_type ≠ "" ∧ pyLower transaction_type = "deposit" then "Income"
  else if transaction_type ≠ "" ∧ pyLower transaction_type = "loan payment" then "Mortgage"
  else
    match findCat CATEGORIES (pyLower (details ++ " " ++ particulars)) with
    | some c => c
    | none => "Other"

/-- `get_category_list()` from `categories.py`: every rule-table key
followed by the fixed labels, in that order. -/
def get_category_list : List String :=
  CATEGORIES.map Prod.fst ++ ["Income", "Mortgage", "Other"]


/-! ### Data-frame model for the `app.py` pipeline

A pandas `DataFrame` is modelled as a list of column names plus rows of
cells aligned positionally with the columns.  A cell is `none` for NaN
(missing value) or carries a string or a number. -/

/-- A scalar cell value: a string or a numeric amount. -/
inductive Value
  | str : String → Value
  | num : Rat → Value
deriving DecidableEq

/-- A data-frame cell; `none` models pandas NaN. -/
abbrev Cell := Option Value

/-- A data frame: named columns and positionally aligned rows. -/
structure DataFrame where
  columns : List String
  rows : List (List Cell)
deriving DecidableEq

/-- A data frame is well-formed (rectangular, as every pandas frame is)
when each row has exactly one cell per column. -/
def DataFrame.WF (df : DataFrame) : Prop :=
  ∀ r ∈ df.rows, r.length = df.columns.length

/-- Index of the first column with the given name (pandas label lookup). -/
def colIdx : List String → String → Option Nat
  | [], _ => none
  | c :: rest, name => if c = name then some 0 else (colIdx rest name).map (· + 1)

/-- The cell of row `r` under column `name` of `df` (`row[name]`);
`none` when the column is absent or the row is too short. -/
def getCellR (df : DataFrame) (r : List Cell) (name : String) : Cell :=
  match colIdx df.columns name with
  | some i => r.getD i none
  | none => none

/-- Pandas column assignment `df[name] = vals`: overwrite an existing
column in place, or append a new column on the right. -/
def setCol (df : DataFrame) (name : String) (vals : List Cell) : DataFrame :=
  match colIdx df.columns name with
  | some i => ⟨df.columns, List.zipWith (fun r v => r.set i v) df.rows vals⟩
  | none => ⟨df.columns ++ [name], List.zipWith (fun r v => r ++ [v]) df.rows vals⟩

/-- A fully blank row (every cell NaN), as dropped by
`df.dropna(how='all')`. -/
def isBlankRow (r : List Cell) : Bool :=
  r.all (fun c => c.isNone)

/-- A per-file ingestion diagnostic, carrying the data of the
`st.error(f"Missing required columns in {file}: {missing}")` message. -/
structure Diag where
  file : String
  missing : List String
deriving DecidableEq

/-- Required columns of the xlsx shape (`load_xlsx`). -/
def requiredXlsxCols : List String := ["Transaction Date", "Details", "Amount"]

/-- Required columns of the csv shape (`load_csv`). -/
def requiredCsvCols : List String := ["Date", "Payee", "Amount"]

/-- The columns reported missing by `load_xlsx` for a parsed table. -/
def missingXlsxCols (t : DataFrame) : List String :=
  requiredXlsxCols.filter (fun c => !(t.columns.contains c))

/-- The columns reported missing by `load_csv` for a parsed table. -/
def missingCsvCols (t : DataFrame) : List String :=
  requiredCsvCols.filter (fun c => !(t.columns.contains c))

/-- The xlsx column renaming of `load_xlsx`. -/
def renameXlsx (c : String) : String :=
  if c = "Transaction Date" then "Date"
  else if c = "Details" then "Description"
  else if c = "Particulars" then "Memo"
  else if c = "Type" then "Tran Type"
  else c

/-- The csv column renaming of `load_csv` ("Payee" → "Description";
"Tran Type" is renamed to itself). -/
def renameCsv (c : String) : String :=
  if c = "Payee" then "Description" else c

/-- `load_xlsx` from `app.py`, applied to the table parsed by
`pd.read_excel`: check the required columns (producing the missing-column
diagnostic on failure) and rename onto the canonical schema.  No blank-row
dropping happens on this path. -/
def load_xlsx (name : String) (t : DataFrame) : Except Diag DataFrame :=
  if (missingXlsxCols t).isEmpty then
    Except.ok ⟨t.columns.map renameXlsx, t.rows⟩
  else
    Except.error ⟨name, missingXlsxCols t⟩

/-- `load_csv` from `app.py`, applied to the table parsed by
`pd.read_csv(..., skiprows=5)` (the five metadata preamble lines are
consumed by the reader): drop fully blank rows (`dropna(how='all')`),
check the required columns, and rename onto the canonical schema. -/
def load_csv (name : String) (t : DataFrame) : Except Diag DataFrame :=
  if (missingCsvCols t).isEmpty then
    Except.ok ⟨t.columns.map renameCsv, t.rows.filter (fun r => !(isBlankRow r))⟩
  else
    Except.error ⟨name, missingCsvCols t⟩

/-- Is this row an internal transfer
(`df["Tran Type"].isin(["TFR IN", "TFR OUT"])`)?  NaN and numeric cells
compare unequal to both strings, as in pandas `isin`. -/
def isTransferRow (df : DataFrame) (r : List Cell) : Bool :=
  match getCellR df r "Tran Type" with
  | some (Value.str s) => s = "TFR IN" || s = "TFR OUT"
  | _ => false

/-- Parse of an ISO "YYYY-MM-DD" date into (year, month).  This models
the slice of `pd.to_datetime` behaviour the exports exercise; other
accepted pandas formats are not needed by the verified properties, which
never inspect dates. -/
def isoYM (s : String) : Option (Nat × Nat) :=
  match s.data with
  | [a, b, c, d, '-', e, f, '-', g, h] =>
    if [a, b, c, d, e, f, g, h].all Char.isDigit then
      some ((a.toNat - 48) * 1000 + (b.toNat - 48) * 100 + (c.toNat - 48) * 10 + (d.toNat - 48),
            (e.toNat - 48) * 10 + (f.toNat - 48))
    else none
  | _ => none

/-- The (year, month) carried by a date cell, if it parses. -/
def parsedYM (c : Cell) : Option (Nat × Nat) :=
  match c with
  | some (Value.str s) => isoYM s
  | _ => none

/-- `pd.to_datetime(col, errors="coerce")` on one cell: keep a parseable
date, coerce everything else to NaT (`none`). -/
def coerceDate (c : Cell) : Cell :=
  if (parsedYM c).isSome then c else none

/-- Left-pad a numeral with zeros to the given width. -/
def padNum (width n : Nat) : String :=
  let s := toString n
  ⟨List.replicate (width - s.data.length) '0'⟩ ++ s

/-- `date.to_period("M").astype(str)` on one cell: "YYYY-MM", or "NaT"
for an unparsed date. -/
def monthCell (c : Cell) : Cell :=
  match parsedYM c with
  | some (y, m) => some (Value.str (padNum 4 y ++ "-" ++ padNum 2 m))
  | none => some (Value.str "NaT")

/-- Python `str(cell)` on a pandas cell: NaN prints as "nan", strings
print as themselves.  (Numeric cells never reach the classifier's text
fields in the exports; their exact float rendering is irrelevant to every
verified property.) -/
def pyStr (c : Cell) : String :=
  match c with
  | none => "nan"
  | some (Value.str s) => s
  | some (Value.num q) => toString q

/-- `str(row.get(name, ""))`: the empty-string default applies only when
the column is absent; a present-but-NaN cell stringifies to "nan". -/
def pyGet (df : DataFrame) (r : List Cell) (name : String) : String :=
  if (colIdx df.columns name).isSome then pyStr (getCellR df r name) else ""

/-- Does a positive-amount test `x > 0` succeed on this cell?  `NaN > 0`
is false in Python; only a numeric cell can compare greater than zero. -/
def cellPos (c : Cell) : Bool :=
  match c with
  | some (Value.num q) => decide (0 < q)
  | _ => false

/-- The classification lambda of `process_data`:
`"Income" if x > 0 else "Expense"`. -/
def pyClassify (c : Cell) : String :=
  if cellPos c then "Income" else "Expense"

/-- Step (a) of `process_data`: drop internal-transfer rows when a
"Tran Type" column exists. -/
def pdFilter (df : DataFrame) : DataFrame :=
  if (colIdx df.columns "Tran Type").isSome then
    ⟨df.columns, df.rows.filter (fun r => !(isTransferRow df r))⟩
  else df

/-- Step (b): `df["Date"] = pd.to_datetime(df["Date"], errors="coerce")`. -/
def pdDate (df : DataFrame) : DataFrame :=
  setCol df "Date" (df.rows.map (fun r => coerceDate (getCellR df r "Date")))

/-- Step (c): `df["Month"] = df["Date"].dt.to_period("M").astype(str)`. -/
def pdMonth (df : DataFrame) : DataFrame :=
  setCol df "Month" (df.rows.map (fun r => monthCell (getCellR df r "Date")))

/-- Step (d): the row-wise `apply` assigning `df["Category"]` via
`categorize_transaction`. -/
def pdCat (df : DataFrame) : DataFrame :=
  setCol df "Category" (df.rows.map (fun r =>
    some (Value.str (categorize_transaction
      (pyGet df r "Description") (pyGet df r "Memo") (pyGet df r "Tran Type")))))

/-- Step (e): `df["Type Classification"] = df["Amount"].apply(...)`. -/
def pdClass (df : DataFrame) : DataFrame :=
  setCol df "Type Classification" (df.rows.map (fun r =>
    some (Value.str (pyClassify (getCellR df r "Amount")))))

/-- `process_data` from `app.py`: transfer filter, date coercion, month
derivation, categorization, income/expense classification. -/
def process_data (df : DataFrame) : DataFrame :=
  pdClass (pdCat (pdMonth (pdDate (pdFilter df))))

/-- An uploaded file: its name and the table produced by the pandas
reader for its format. -/
structure UFile where
  name : String
  table : DataFrame
deriving DecidableEq

/-- Dispatch on the file extension as `load_and_process_files` does;
`none` is the unsupported-type branch (`st.warning`, file skipped). -/
def loadFile (f : UFile) : Option (Except Diag DataFrame) :=
  if strEndsWith f.name ".xlsx" then some (load_xlsx f.name f.table)
  else if strEndsWith f.name ".csv" then some (load_csv f.name f.table)
  else none

/-- Did this file's branch of the loading loop contribute a frame? -/
def loadSuccess (f : UFile) : Bool :=
  match loadFile f with
  | some (Except.ok _) => true
  | _ => false

/-- `df["Source"] = uploaded_file.name`. -/
def addSource (df : DataFrame) (name : String) : DataFrame :=
  setCol df "Source" (df.rows.map (fun _ => some (Value.str name)))

/-- The loading loop of `load_and_process_files`: collected diagnostics
and successfully loaded frames (tagged with their source file), in upload
order. -/
def loadAll : List UFile → List Diag × List DataFrame
  | [] => ([], [])
  | f :: rest =>
    match loadFile f with
    | none => loadAll rest
    | some (Except.error d) => (d :: (loadAll rest).1, (loadAll rest).2)
    | some (Except.ok df) => ((loadAll rest).1, addSource df f.name :: (loadAll rest).2)

/-- One insertion step of the pandas column-union used by `pd.concat`. -/
def addColName (acc : List String) (c : String) : List String :=
  if acc.contains c then acc else acc ++ [c]

/-- The column union of `pd.concat`, in first-appearance order. -/
def unionCols (dfs : List DataFrame) : List String :=
  dfs.foldl (fun acc df => df.columns.foldl addColName acc) []

/-- Reindex one row of `df` onto the union columns: a column `df` lacks
becomes NaN, exactly as `pd.concat` fills. -/
def reindexRow (cols : List String) (df : DataFrame) (r : List Cell) : List Cell :=
  cols.map (fun c => getCellR df r c)

/-- `pd.concat(all_dfs, ignore_index=True)`. -/
def concatDF (dfs : List DataFrame) : DataFrame :=
  ⟨unionCols dfs, (dfs.map (fun df => df.rows.map (reindexRow (unionCols dfs) df))).flatten⟩

/-- `load_and_process_files` from `app.py`: load every file, return the
diagnostics plus (`none` when no file loaded, mirroring `return None`)
the processed concatenation of the successful loads. -/
def load_and_process_files (files : List UFile) : List Diag × Option DataFrame :=
  ((loadAll files).1,
   if (loadAll files).2.isEmpty then none
   else some (process_data (concatDF (loadAll files).2)))

/-- The three top-level outcomes of the module-level Streamlit flow. -/
inductive AppView
  | promptToUpload
  | blank
  | dashboard
deriving DecidableEq

/-- The module-level control flow of `app.py` (lines 269–495): with no
uploaded files the `st.info` upload prompt is shown; with files whose
pipeline result is `None` nothing further is rendered; otherwise the
dashboard is rendered. -/
def renderOutcome (files : List UFile) : AppView :=
  if files.isEmpty then AppView.promptToUpload
  else
    match (load_and_process_files files).2 with
    | none => AppView.blank
    | some _ => AppView.dashboard

def xBlankTable : DataFrame := ⟨["Transaction Date", "Details", "Amount"], [[none, none, none]]⟩
def xBlankFile : UFile := ⟨"a.xlsx", xBlankTable⟩
def txtOnlyFile : UFile := ⟨"a.txt", ⟨[], []⟩⟩


def c5InCsv : DataFrame :=
  ⟨["Date", "Payee", "Amount", "Tran Type"],
   [[some (Value.str "2024-01-02"), some (Value.str "shop"), some (Value.num 5), some (Value.str "EFTPOS")],
    [none, none, none, none]]⟩
def c5OutCsv : DataFrame :=
  ⟨["Date", "Description", "Amount", "Tran Type"],
   [[some (Value.str "2024-01-02"), some (Value.str "shop"), some (Value.num 5), some (Value.str "EFTPOS")]]⟩

def c5InX : DataFrame :=
  ⟨["Transaction Date", "Details", "Amount"],
   [[some (Value.str "2024-01-02"), some (Value.str "a"), some (Value.num 1)]]⟩
def c5OutX : DataFrame :=
  ⟨["Date", "Description", "Amount"],
   [[some (Value.str "2024-01-02"), some (Value.str "a"), some (Value.num 1)]]⟩

def c6Df : DataFrame := ⟨["Date", "Amount"], [[some (Value.str "2024-01-05"), some (Value.num 5)]]⟩
def c6Row : List Cell :=
  [some (Value.str "2024-01-05"), some (Value.num 5), some (Value.str "2024-01"),
   some (Value.str "Other"), some (Value.str "Income")]

def c7BadX : UFile := ⟨"b.xlsx", ⟨["Transaction Date", "Details"], []⟩⟩
def c7GoodCsv : UFile := ⟨"g.csv", c5InCsv⟩

/-! ### Basic lemmas about the keyword scan -/

lemma isPrefixOf_trans : ∀ (a b c : List Char),
    a.isPrefixOf b = true → b.isPrefixOf c = true → a.isPrefixOf c = true := by
  intro a
  induction a with
  | nil => intro b c _ _; cases c <;> rfl
  | cons x as ih =>
    intro b c hab hbc
    cases b with
    | nil => exact absurd hab (by simp [List.isPrefixOf])
    | cons y bs =>
      cases c with
      | nil => exact absurd hbc (by simp [List.isPrefixOf])
      | cons z cs =>
        simp only [List.isPrefixOf, Bool.and_eq_true, beq_iff_eq] at hab hbc ⊢
        exact ⟨hab.1.trans hbc.1, ih bs cs hab.2 hbc.2⟩

/-- If a needle `a` is a prefix of a needle `b`, every haystack containing
`b` also contains `a`. -/
lemma listOccurs_of_prefix : ∀ (c a b : List Char),
    a.isPrefixOf b = true → listOccurs b c = true → listOccurs a c = true := by
  intro c
  induction c with
  | nil =>
    intro a b hab hb
    simp only [listOccurs, List.isEmpty_iff] at hb
    subst hb
    cases a with
    | nil => rfl
    | cons x xs => exact absurd hab (by simp [List.isPrefixOf])
  | cons z t ih =>
    intro a b hab hb
    simp only [listOccurs, Bool.or_eq_true] at hb ⊢
    cases hb with
    | inl h => exact Or.inl (isPrefixOf_trans a b (z :: t) hab h)
    | inr h => exact Or.inr (ih a b hab h)

/-- `findCat` returns the category at the first matching index. -/
lemma findCat_first : ∀ (L : List (String × List String)) (txt : String)
    (i : Nat) (hi : i < L.length),
    scanKeywords (L.get ⟨i, hi⟩).2 txt = true →
    (∀ (j : Nat) (hj : j < i), scanKeywords (L.get ⟨j, Nat.lt_trans hj hi⟩).2 txt = false) →
    findCat L txt = some (L.get ⟨i, hi⟩).1 := by
  intro L txt
  induction L with
  | nil => intro i hi _ _; exact absurd hi (Nat.not_lt_zero i)
  | cons e rest ih =>
    intro i hi hm hb
    cases i with
    | zero =>
      have hm' : scanKeywords e.2 txt = true := hm
      unfold findCat
      rw [if_pos hm']
      rfl
    | succ n =>
      have h0 : scanKeywords e.2 txt = false := hb 0 (Nat.succ_pos n)
      unfold findCat
      rw [if_neg (by simp [h0])]
      exact ih n (Nat.lt_of_succ_lt_succ hi) hm (fun j hj => hb (j + 1) (Nat.succ_lt_succ hj))

/-- `findCat` returns nothing when no category matches. -/
lemma findCat_none : ∀ (L : List (String × List String)) (txt : String),
    (∀ (i : Nat) (hi : i < L.length), scanKeywords (L.get ⟨i, hi⟩).2 txt = false) →
    findCat L txt = none := by
  intro L txt
  induction L with
  | nil => intro _; rfl
  | cons e rest ih =>
    intro hall
    have h0 : scanKeywords e.2 txt = false := hall 0 (Nat.succ_pos rest.length)
    unfold findCat
    rw [if_neg (by simp [h0])]
    exact ih (fun i hi => hall (i + 1) (Nat.succ_lt_succ hi))

/-- Whatever `findCat` returns is one of the scanned table's keys. -/
lemma findCat_mem : ∀ (L : List (String × List String)) (txt : String) (c : String),
    findCat L txt = some c → c ∈ L.map Prod.fst := by
  intro L txt c
  induction L with
  | nil => intro h; exact absurd h (by simp [findCat])
  | cons e rest ih =>
    intro h
    unfold findCat at h
    by_cases hs : scanKeywords e.2 txt = true
    · rw [if_pos hs] at h
      simp only [Option.some.injEq] at h
      simp [← h]
    · rw [if_neg hs] at h
      simp [ih h]

/-- With neither transaction-type override firing, the classifier is the
rule-table scan over the lowercased space-joined text, with fallback
`"Other"`. -/
lemma categorize_eq_scan (d m t : String)
    (h1 : pyLower t ≠ "deposit") (h2 : pyLower t ≠ "loan payment") :
    categorize_transaction d m t =
      match findCat CATEGORIES (pyLower (d ++ " " ++ m)) with
      | some c => c
      | none => "Other" := by
  unfold categorize_transaction
  rw [if_neg (fun hc => h1 hc.2), if_neg (fun hc => h2 hc.2)]

/-! ### Claims about the classifier -/

/-- C1: when the transaction type is not (case-insensitively) "deposit" or
"loan payment" and the memo does not contain "joint", the classifier
lowercases the single-space concatenation of description and memo, scans
the rule table in its defined key order, and returns the first category
whose keyword list matches (so a text matching two categories yields the
earlier key); if no category matches it returns exactly "Other". -/
theorem categorize_rule_table_scan (d m t : String)
    (h1 : pyLower t ≠ "deposit") (h2 : pyLower t ≠ "loan payment")
    (_h3 : occursIn "joint" (pyLower m) = false) :
    (∀ (i : Nat) (hi : i < CATEGORIES.length),
        scanKeywords (CATEGORIES.get ⟨i, hi⟩).2 (pyLower (d ++ " " ++ m)) = true →
        (∀ (j : Nat) (hj : j < i),
          scanKeywords (CATEGORIES.get ⟨j, Nat.lt_trans hj hi⟩).2 (pyLower (d ++ " " ++ m)) = false) →
        categorize_transaction d m t = (CATEGORIES.get ⟨i, hi⟩).1)
    ∧ ((∀ (i : Nat) (hi : i < CATEGORIES.length),
          scanKeywords (CATEGORIES.get ⟨i, hi⟩).2 (pyLower (d ++ " " ++ m)) = false) →
        categorize_transaction d m t = "Other") := by
  constructor
  · intro i hi hm hb
    rw [categorize_eq_scan d m t h1 h2,
      findCat_first CATEGORIES (pyLower (d ++ " " ++ m)) i hi hm hb]
  · intro hall
    rw [categorize_eq_scan d m t h1 h2,
      findCat_none CATEGORIES (pyLower (d ++ " " ++ m)) hall]

/-- Witness for C1: "BP Connect" with type "Payment" matches the first
rule-table entry (Transport, keyword "bp"). -/
theorem categorize_rule_table_scan_witness :
    categorize_transaction "BP Connect" "" "Payment" = "Transport" := by
  have h := categorize_rule_table_scan "BP Connect" "" "Payment"
    (by decide) (by decide) (by decide)
  exact h.1 0 (by decide) (by decide) (fun j hj => absurd hj (Nat.not_lt_zero j))

/-- C2: a transaction type that lowercases to "deposit" always yields
"Income", and one that lowercases to "loan payment" always yields
"Mortgage", regardless of description and memo. -/
theorem categorize_type_overrides (d m t : String) :
    (pyLower t = "deposit" → categorize_transaction d m t = "Income") ∧
    (pyLower t = "loan payment" → categorize_transaction d m t = "Mortgage") := by
  constructor
  · intro h
    have ht : t ≠ "" := by intro he; subst he; exact absurd h (by decide)
    unfold categorize_transaction
    rw [if_pos ⟨ht, h⟩]
  · intro h
    have ht : t ≠ "" := by intro he; subst he; exact absurd h (by decide)
    have hneg : ¬(t ≠ "" ∧ pyLower t = "deposit") :=
      fun hc => absurd (h.symm.trans hc.2) (by decide)
    unfold categorize_transaction
    rw [if_neg hneg, if_pos ⟨ht, h⟩]

/-- Witness for C2: the overrides fire on concrete inputs, even when the
description ("Countdown") matches a Groceries keyword. -/
theorem categorize_type_overrides_witness :
    categorize_transaction "x" "y" "DEPOSIT" = "Income" ∧
    categorize_transaction "Countdown" "" "Loan Payment" = "Mortgage" :=
  ⟨(categorize_type_overrides "x" "y" "DEPOSIT").1 (by decide),
   (categorize_type_overrides "Countdown" "" "Loan Payment").2 (by decide)⟩

/-- C3 counterexample: the source classifier has no "joint" rule.  The
memo "joint" contains the substring "joint", the transaction type is
empty (so neither override fires), yet the classifier returns "Other",
not "Income" as the claim requires. -/
theorem joint_memo_counterexample :
    occursIn "joint" (pyLower "joint") = true ∧
    categorize_transaction "" "joint" "" ≠ "Income" ∧
    categorize_transaction "" "joint" "" = "Other" := by decide

/-- C3 amended: `categorize_transaction` contains no joint-memo override.
When the type overrides do not fire, a memo containing "joint" is treated
like any other text: the result is a rule-table key or "Other", never the
synthetic "Income"/"Mortgage" labels, and when no keyword matches the
concatenation the result is exactly "Other". -/
theorem joint_memo_no_override (d m t : String)
    (h1 : pyLower t ≠ "deposit") (h2 : pyLower t ≠ "loan payment")
    (_h3 : occursIn "joint" (pyLower m) = true) :
    categorize_transaction d m t ≠ "Income" ∧
    categorize_transaction d m t ≠ "Mortgage" ∧
    (findCat CATEGORIES (pyLower (d ++ " " ++ m)) = none →
      categorize_transaction d m t = "Other") := by
  refine ⟨?_, ?_, ?_⟩
  · rw [categorize_eq_scan d m t h1 h2]
    cases hf : findCat CATEGORIES (pyLower (d ++ " " ++ m)) with
    | none => decide
    | some c =>
      intro he
      have he' : c = "Income" := he
      have hc := findCat_mem CATEGORIES (pyLower (d ++ " " ++ m)) c hf
      rw [he'] at hc
      exact absurd hc (by decide)
  · rw [categorize_eq_scan d m t h1 h2]
    cases hf : findCat CATEGORIES (pyLower (d ++ " " ++ m)) with
    | none => decide
    | some c =>
      intro he
      have he' : c = "Mortgage" := he
      have hc := findCat_mem CATEGORIES (pyLower (d ++ " " ++ m)) c hf
      rw [he'] at hc
      exact absurd hc (by decide)
  · intro hn
    rw [categorize_eq_scan d m t h1 h2, hn]

/-- Witness for the amended C3, at memo "joint" and type "Payment". -/
theorem joint_memo_no_override_witness :
    categorize_transaction "" "joint" "Payment" ≠ "Income" ∧
    categorize_transaction "" "joint" "Payment" ≠ "Mortgage" :=
  ⟨(joint_memo_no_override "" "joint" "Payment" (by decide) (by decide) (by decide)).1,
   (joint_memo_no_override "" "joint" "Payment" (by decide) (by decide) (by decide)).2.1⟩

/-- C4: the classifier's result is always a member of the closed list
returned by `get_category_list` (the rule-table keys followed by
"Income", "Mortgage", "Other"); the embedding is a total function, so no
input can raise. -/
theorem categorize_mem_category_list :
    ∀ (d m t : String), categorize_transaction d m t ∈ get_category_list := by
  intro d m t
  unfold categorize_transaction
  split
  · decide
  · split
    · decide
    · split
      · rename_i c hc
        have := findCat_mem CATEGORIES (pyLower (d ++ " " ++ m)) c hc
        simp [get_category_list, List.mem_append, this]
      · decide

/-- C9: neither "Z" alone nor "Energy" alone matches any rule-table
keyword, yet classifying description "Z" with memo "Energy" returns the
rule-table category "Transport", because the keyword "z energy" spans the
single-space join boundary. -/
theorem keyword_spans_join_boundary :
    (CATEGORIES.all (fun e => !(scanKeywords e.2 (pyLower "Z")))) = true ∧
    (CATEGORIES.all (fun e => !(scanKeywords e.2 (pyLower "Energy")))) = true ∧
    categorize_transaction "Z" "Energy" "" = "Transport" ∧
    "Transport" ∈ CATEGORIES.map Prod.fst := by decide

/-- C10: any text whose lowercased description-memo concatenation
contains "uber eats" also contains "uber", which is a Transport keyword,
and Transport precedes Dining in the table, so the classifier returns
"Transport" and never "Dining" (absent the type overrides). -/
theorem uber_eats_unreachable (d m t : String)
    (h : occursIn "uber eats" (pyLower (d ++ " " ++ m)) = true)
    (h1 : pyLower t ≠ "deposit") (h2 : pyLower t ≠ "loan payment") :
    categorize_transaction d m t = "Transport" ∧
    categorize_transaction d m t ≠ "Dining" := by
  have huber : occursIn "uber" (pyLower (d ++ " " ++ m)) = true :=
    listOccurs_of_prefix _ _ _ (by decide) h
  have hscan : scanKeywords (CATEGORIES.get ⟨0, by decide⟩).2 (pyLower (d ++ " " ++ m)) = true := by
    apply List.any_eq_true.mpr
    refine ⟨"uber", by decide, ?_⟩
    have hu : pyLower "uber" = "uber" := by decide
    rw [hu]
    exact huber
  have hfind : findCat CATEGORIES (pyLower (d ++ " " ++ m)) = some "Transport" :=
    findCat_first CATEGORIES (pyLower (d ++ " " ++ m)) 0 (by decide) hscan
      (fun j hj => absurd hj (Nat.not_lt_zero j))
  have hres : categorize_transaction d m t = "Transport" := by
    rw [categorize_eq_scan d m t h1 h2, hfind]
  exact ⟨hres, by rw [hres]; decide⟩

/-- Witness for C10 at a concrete "UBER EATS" description. -/
theorem uber_eats_unreachable_witness :
    categorize_transaction "UBER EATS sydney" "" "visa" = "Transport" ∧
    categorize_transaction "UBER EATS sydney" "" "visa" ≠ "Dining" :=
  uber_eats_unreachable "UBER EATS sydney" "" "visa" (by decide) (by decide) (by decide)

/-! ### List and column-lookup lemmas -/

lemma length_filter_not_add {α : Type} (p : α → Bool) (l : List α) :
    (l.filter (fun a => !(p a))).length + (l.filter p).length = l.length := by
  induction l with
  | nil => rfl
  | cons a t ih =>
    cases h : p a <;> simp [List.filter_cons, h] <;> omega

lemma getD_set_self {α : Type} : ∀ (l : List α) (i : Nat) (v d : α),
    i < l.length → (l.set i v).getD i d = v := by
  intro l
  induction l with
  | nil => intro i v d h; exact absurd h (Nat.not_lt_zero i)
  | cons a t ih =>
    intro i v d h
    cases i with
    | zero => rfl
    | succ n => exact ih n v d (Nat.lt_of_succ_lt_succ h)

lemma getD_set_other {α : Type} : ∀ (l : List α) (i j : Nat) (v d : α),
    i ≠ j → (l.set i v).getD j d = l.getD j d := by
  intro l
  induction l with
  | nil => intro i j v d _; rfl
  | cons a t ih =>
    intro i j v d hne
    cases i with
    | zero =>
      cases j with
      | zero => exact absurd rfl hne
      | succ m => rfl
    | succ n =>
      cases j with
      | zero => rfl
      | succ m => exact ih n m v d (fun he => hne (by rw [he]))

lemma getD_append_self {α : Type} : ∀ (l : List α) (v d : α),
    (l ++ [v]).getD l.length d = v := by
  intro l
  induction l with
  | nil => intro v d; rfl
  | cons a t ih => intro v d; exact ih v d

lemma getD_append_lt {α : Type} : ∀ (l : List α) (j : Nat) (v d : α),
    j < l.length → (l ++ [v]).getD j d = l.getD j d := by
  intro l
  induction l with
  | nil => intro j v d h; exact absurd h (Nat.not_lt_zero j)
  | cons a t ih =>
    intro j v d h
    cases j with
    | zero => rfl
    | succ n => exact ih n v d (Nat.lt_of_succ_lt_succ h)

lemma colIdx_some : ∀ (l : List String) (n : String) (i : Nat),
    colIdx l n = some i → i < l.length ∧ l.getD i "" = n := by
  intro l n
  induction l with
  | nil => intro i h; exact absurd h (by simp [colIdx])
  | cons c rest ih =>
    intro i h
    unfold colIdx at h
    by_cases hc : c = n
    · rw [if_pos hc] at h
      injection h with h
      subst h
      exact ⟨Nat.succ_pos rest.length, hc⟩
    · rw [if_neg hc] at h
      cases hr : colIdx rest n with
      | none => rw [hr] at h; exact absurd h (by simp)
      | some i0 =>
        rw [hr] at h
        injection h with h
        subst h
        obtain ⟨h1, h2⟩ := ih i0 hr
        exact ⟨Nat.succ_lt_succ h1, h2⟩

lemma colIdx_append_self : ∀ (l : List String) (n : String),
    colIdx l n = none → colIdx (l ++ [n]) n = some l.length := by
  intro l n
  induction l with
  | nil => intro _; simp [colIdx]
  | cons c rest ih =>
    intro h
    unfold colIdx at h
    by_cases hc : c = n
    · rw [if_pos hc] at h; exact absurd h (by simp)
    · rw [if_neg hc] at h
      have hr : colIdx rest n = none := by
        cases hr : colIdx rest n with
        | none => rfl
        | some i0 => rw [hr] at h; exact absurd h (by simp)
      show colIdx (c :: (rest ++ [n])) n = some (rest.length + 1)
      unfold colIdx
      rw [if_neg hc, ih hr]
      rfl

lemma colIdx_append_other : ∀ (l : List String) (n c : String),
    c ≠ n → colIdx (l ++ [n]) c = colIdx l c := by
  intro l n c hc
  induction l with
  | nil =>
    show colIdx [n] c = colIdx [] c
    unfold colIdx
    rw [if_neg (fun he => hc he.symm)]
    rfl
  | cons a rest ih =>
    show colIdx (a :: (rest ++ [n])) c = colIdx (a :: rest) c
    unfold colIdx
    by_cases ha : a = c
    · rw [if_pos ha, if_pos ha]
    · rw [if_neg ha, if_neg ha, ih]

lemma zipWith_map_self {α β γ : Type} (g : α → β → γ) (f : α → β) :
    ∀ (l : List α), List.zipWith g l (l.map f) = l.map (fun a => g a (f a)) := by
  intro l
  induction l with
  | nil => rfl
  | cons a t ih => simp [List.zipWith, ih]

lemma flatten_length_sum {α : Type} : ∀ (L : List (List α)),
    L.flatten.length = (L.map List.length).sum := by
  intro L
  induction L with
  | nil => rfl
  | cons l L ih => simp [List.flatten_cons, ih]

/-! ### Lemmas about `setCol` and `getCellR` -/

lemma setCol_eq_over (df : DataFrame) (name : String) (vals : List Cell) (i : Nat)
    (h : colIdx df.columns name = some i) :
    setCol df name vals = ⟨df.columns, List.zipWith (fun r v => r.set i v) df.rows vals⟩ := by
  unfold setCol
  rw [h]

lemma setCol_eq_app (df : DataFrame) (name : String) (vals : List Cell)
    (h : colIdx df.columns name = none) :
    setCol df name vals = ⟨df.columns ++ [name], List.zipWith (fun r v => r ++ [v]) df.rows vals⟩ := by
  unfold setCol
  rw [h]

lemma getCellR_eq_idx (df : DataFrame) (r : List Cell) (name : String) (i : Nat)
    (h : colIdx df.columns name = some i) :
    getCellR df r name = r.getD i none := by
  unfold getCellR
  rw [h]

lemma getCellR_eq_none (df : DataFrame) (r : List Cell) (name : String)
    (h : colIdx df.columns name = none) :
    getCellR df r name = none := by
  unfold getCellR
  rw [h]

lemma getCellR_mk_idx (cols : List String) (rows : List (List Cell)) (r : List Cell)
    (name : String) (i : Nat) (h : colIdx cols name = some i) :
    getCellR ⟨cols, rows⟩ r name = r.getD i none := by
  show (match colIdx cols name with | some i => r.getD i none | none => none) = r.getD i none
  rw [h]

lemma getCellR_mk_none (cols : List String) (rows : List (List Cell)) (r : List Cell)
    (name : String) (h : colIdx cols name = none) :
    getCellR ⟨cols, rows⟩ r name = none := by
  show (match colIdx cols name with | some i => r.getD i none | none => none) = none
  rw [h]

lemma setCol_map_length (df : DataFrame) (name : String) (f : List Cell → Cell) :
    (setCol df name (df.rows.map f)).rows.length = df.rows.length := by
  cases h : colIdx df.columns name with
  | some i => rw [setCol_eq_over df name _ i h]; simp [List.length_zipWith]
  | none => rw [setCol_eq_app df name _ h]; simp [List.length_zipWith]

lemma setCol_map_wf (df : DataFrame) (name : String) (f : List Cell → Cell)
    (hwf : df.WF) : (setCol df name (df.rows.map f)).WF := by
  cases h : colIdx df.columns name with
  | some i =>
    rw [setCol_eq_over df name _ i h]
    intro r' hr'
    rw [zipWith_map_self] at hr'
    obtain ⟨r, hr, rfl⟩ := List.mem_map.mp hr'
    simp [List.length_set, hwf r hr]
  | none =>
    rw [setCol_eq_app df name _ h]
    intro r' hr'
    rw [zipWith_map_self] at hr'
    obtain ⟨r, hr, rfl⟩ := List.mem_map.mp hr'
    simp [hwf r hr]

/-- Each row of `setCol df name (df.rows.map f)` comes from a source row
`r`: under `name` it holds `f r`, and under every other column it holds
`r`'s cell. -/
lemma setCol_map_mem (df : DataFrame) (name : String) (f : List Cell → Cell)
    (hwf : df.WF) (r' : List Cell)
    (hr' : r' ∈ (setCol df name (df.rows.map f)).rows) :
    ∃ r ∈ df.rows,
      getCellR (setCol df name (df.rows.map f)) r' name = f r ∧
      ∀ c, c ≠ name → getCellR (setCol df name (df.rows.map f)) r' c = getCellR df r c := by
  cases h : colIdx df.columns name with
  | some i =>
    rw [setCol_eq_over df name _ i h] at hr'
    have hr2 : r' ∈ List.zipWith (fun r v => r.set i v) df.rows (df.rows.map f) := hr'
    rw [zipWith_map_self] at hr2
    obtain ⟨r, hr, rfl⟩ := List.mem_map.mp hr2
    refine ⟨r, hr, ?_, ?_⟩
    · rw [setCol_eq_over df name _ i h, getCellR_mk_idx df.columns _ _ name i h]
      exact getD_set_self r i (f r) none
        (by rw [hwf r hr]; exact (colIdx_some df.columns name i h).1)
    · intro c hc
      rw [setCol_eq_over df name _ i h]
      cases hcc : colIdx df.columns c with
      | none => rw [getCellR_mk_none df.columns _ _ c hcc, getCellR_eq_none df r c hcc]
      | some j =>
        rw [getCellR_mk_idx df.columns _ _ c j hcc, getCellR_eq_idx df r c j hcc]
        have hne : i ≠ j := by
          intro he
          have h1 := (colIdx_some df.columns name i h).2
          have h2 := (colIdx_some df.columns c j hcc).2
          rw [← he] at h2
          exact hc (h1.symm.trans h2).symm
        exact getD_set_other r i j (f r) none hne
  | none =>
    rw [setCol_eq_app df name _ h] at hr'
    have hr2 : r' ∈ List.zipWith (fun r v => r ++ [v]) df.rows (df.rows.map f) := hr'
    rw [zipWith_map_self] at hr2
    obtain ⟨r, hr, rfl⟩ := List.mem_map.mp hr2
    have hci : colIdx (df.columns ++ [name]) name = some df.columns.length :=
      colIdx_append_self df.columns name h
    refine ⟨r, hr, ?_, ?_⟩
    · rw [setCol_eq_app df name _ h,
        getCellR_mk_idx (df.columns ++ [name]) _ _ name df.columns.length hci, ← hwf r hr]
      exact getD_append_self r (f r) none
    · intro c hc
      rw [setCol_eq_app df name _ h]
      have hcc2 : colIdx (df.columns ++ [name]) c = colIdx df.columns c :=
        colIdx_append_other df.columns name c hc
      cases hcc : colIdx df.columns c with
      | none =>
        rw [getCellR_mk_none (df.columns ++ [name]) _ _ c (by rw [hcc2, hcc]),
          getCellR_eq_none df r c hcc]
      | some j =>
        rw [getCellR_mk_idx (df.columns ++ [name]) _ _ c j (by rw [hcc2, hcc]),
          getCellR_eq_idx df r c j hcc]
        exact getD_append_lt r j (f r) none
          (by rw [hwf r hr]; exact (colIdx_some df.columns c j hcc).1)

/-! ### Lemmas about `process_data` and the loading loop -/

lemma isTransferRow_no_col (df : DataFrame) (r : List Cell)
    (h : colIdx df.columns "Tran Type" = none) : isTransferRow df r = false := by
  unfold isTransferRow
  rw [getCellR_eq_none df r _ h]

lemma pdFilter_length (df : DataFrame) :
    (pdFilter df).rows.length + (df.rows.filter (isTransferRow df)).length = df.rows.length := by
  unfold pdFilter
  by_cases h : (colIdx df.columns "Tran Type").isSome
  · rw [if_pos h]
    exact length_filter_not_add (isTransferRow df) df.rows
  · rw [if_neg h]
    have hnone : colIdx df.columns "Tran Type" = none :=
      Option.not_isSome_iff_eq_none.mp h
    have : df.rows.filter (isTransferRow df) = [] := by
      apply List.filter_eq_nil_iff.mpr
      intro a _
      rw [isTransferRow_no_col df a hnone]
      simp
    rw [this]
    rfl

lemma process_data_length (df : DataFrame) :
    (process_data df).rows.length + (df.rows.filter (isTransferRow df)).length
      = df.rows.length := by
  unfold process_data pdClass pdCat pdMonth pdDate
  rw [setCol_map_length, setCol_map_length, setCol_map_length, setCol_map_length]
  exact pdFilter_length df

lemma pdFilter_wf (df : DataFrame) (hwf : df.WF) : (pdFilter df).WF := by
  unfold pdFilter
  by_cases h : (colIdx df.columns "Tran Type").isSome
  · rw [if_pos h]
    intro r hr
    exact hwf r (List.mem_of_mem_filter hr)
  · rw [if_neg h]
    exact hwf

lemma pd_chain_wf (df : DataFrame) (hwf : df.WF) :
    (pdCat (pdMonth (pdDate (pdFilter df)))).WF := by
  unfold pdCat pdMonth pdDate
  exact setCol_map_wf _ _ _ (setCol_map_wf _ _ _ (setCol_map_wf _ _ _ (pdFilter_wf df hwf)))

lemma loadAll_cons_none {f : UFile} {rest : List UFile} (h : loadFile f = none) :
    loadAll (f :: rest) = loadAll rest := by
  have he : loadAll (f :: rest)
      = match loadFile f with
        | none => loadAll rest
        | some (Except.error d) => (d :: (loadAll rest).1, (loadAll rest).2)
        | some (Except.ok df) => ((loadAll rest).1, addSource df f.name :: (loadAll rest).2) := rfl
  rw [he, h]

lemma loadAll_cons_error {f : UFile} {rest : List UFile} {d : Diag}
    (h : loadFile f = some (Except.error d)) :
    loadAll (f :: rest) = (d :: (loadAll rest).1, (loadAll rest).2) := by
  have he : loadAll (f :: rest)
      = match loadFile f with
        | none => loadAll rest
        | some (Except.error d) => (d :: (loadAll rest).1, (loadAll rest).2)
        | some (Except.ok df) => ((loadAll rest).1, addSource df f.name :: (loadAll rest).2) := rfl
  rw [he, h]

lemma loadAll_cons_ok {f : UFile} {rest : List UFile} {df : DataFrame}
    (h : loadFile f = some (Except.ok df)) :
    loadAll (f :: rest) = ((loadAll rest).1, addSource df f.name :: (loadAll rest).2) := by
  have he : loadAll (f :: rest)
      = match loadFile f with
        | none => loadAll rest
        | some (Except.error d) => (d :: (loadAll rest).1, (loadAll rest).2)
        | some (Except.ok df) => ((loadAll rest).1, addSource df f.name :: (loadAll rest).2) := rfl
  rw [he, h]

/-- Removing a rejected file from a batch leaves the loaded frames
unchanged, and its diagnostic is collected. -/
lemma loadAll_erase_error : ∀ (pre post : List UFile) (f : UFile) (d : Diag),
    loadFile f = some (Except.error d) →
    (loadAll (pre ++ f :: post)).2 = (loadAll (pre ++ post)).2
    ∧ d ∈ (loadAll (pre ++ f :: post)).1 := by
  intro pre
  induction pre with
  | nil =>
    intro post f d h
    simp only [List.nil_append]
    rw [loadAll_cons_error h]
    exact ⟨rfl, List.mem_cons_self d (loadAll post).1⟩
  | cons g pre' ih =>
    intro post f d h
    simp only [List.cons_append]
    obtain ⟨ih1, ih2⟩ := ih post f d h
    cases hg : loadFile g with
    | none =>
      rw [loadAll_cons_none hg, loadAll_cons_none hg]
      exact ⟨ih1, ih2⟩
    | some e =>
      cases e with
      | error d' =>
        rw [loadAll_cons_error hg, loadAll_cons_error hg]
        exact ⟨ih1, List.mem_cons_of_mem d' ih2⟩
      | ok df =>
        rw [loadAll_cons_ok hg, loadAll_cons_ok hg]
        exact ⟨by rw [ih1], ih2⟩

/-- A successfully loading file makes the loaded-frame list nonempty. -/
lemma loadAll_snd_ne_nil : ∀ (files : List UFile) (g : UFile),
    g ∈ files → loadSuccess g = true → (loadAll files).2 ≠ [] := by
  intro files
  induction files with
  | nil => intro g hg _; exact absurd hg (List.not_mem_nil g)
  | cons f rest ih =>
    intro g hg hs
    cases List.mem_cons.mp hg with
    | inl he =>
      subst he
      unfold loadSuccess at hs
      cases hf : loadFile g with
      | none => rw [hf] at hs; exact absurd hs (by simp)
      | some e =>
        cases e with
        | error d => rw [hf] at hs; exact absurd hs (by simp)
        | ok df => rw [loadAll_cons_ok hf]; simp
    | inr hm =>
      have hne := ih g hm hs
      cases hf : loadFile f with
      | none => rw [loadAll_cons_none hf]; exact hne
      | some e =>
        cases e with
        | error d => rw [loadAll_cons_error hf]; exact hne
        | ok df => rw [loadAll_cons_ok hf]; simp

/-! ### Claims about the ingestion pipeline -/

/-- C5 counterexample: the xlsx path never drops blank rows.  A one-row
xlsx batch whose single row is fully blank (and contains no transfers)
produces a canonical set of 1 row, not `1 − 0 − 1 = 0` as the claim
requires for the spreadsheet shape. -/
theorem blank_xlsx_row_counterexample :
    (load_and_process_files [xBlankFile]).2.map (fun d => d.rows.length)
      ≠ some (xBlankTable.rows.length
              - (xBlankTable.rows.filter (isTransferRow xBlankTable)).length
              - (xBlankTable.rows.filter isBlankRow).length)
    ∧ (load_and_process_files [xBlankFile]).2.map (fun d => d.rows.length) = some 1 := by
  decide

/-- C5 amended: transfer rows are always excluded and blank rows are
discarded on the delimited-text path only, so canonical row count equals
input count minus transfers minus csv-blanks: (1) `load_csv` drops
exactly the fully blank rows; (2) `load_xlsx` keeps every row; (3) the
source tag preserves row count; (4) concatenation row count is the sum of
the loaded frames' counts; (5) `process_data` removes exactly the rows
whose transaction type is "TFR IN" or "TFR OUT". -/
theorem pipeline_row_counts :
    (∀ (n : String) (t out : DataFrame), load_csv n t = Except.ok out →
        out.rows.length + (t.rows.filter isBlankRow).length = t.rows.length)
    ∧ (∀ (n : String) (t out : DataFrame), load_xlsx n t = Except.ok out →
        out.rows.length = t.rows.length)
    ∧ (∀ (df : DataFrame) (n : String), (addSource df n).rows.length = df.rows.length)
    ∧ (∀ (dfs : List DataFrame),
        (concatDF dfs).rows.length = (dfs.map (fun d => d.rows.length)).sum)
    ∧ (∀ (df : DataFrame),
        (process_data df).rows.length + (df.rows.filter (isTransferRow df)).length
          = df.rows.length) := by
  refine ⟨?_, ?_, ?_, ?_, process_data_length⟩
  · intro n t out h
    unfold load_csv at h
    by_cases hm : (missingCsvCols t).isEmpty
    · rw [if_pos hm] at h
      injection h with h
      rw [← h]
      exact length_filter_not_add isBlankRow t.rows
    · rw [if_neg hm] at h
      exact Except.noConfusion h
  · intro n t out h
    unfold load_xlsx at h
    by_cases hm : (missingXlsxCols t).isEmpty
    · rw [if_pos hm] at h
      injection h with h
      rw [← h]
    · rw [if_neg hm] at h
      exact Except.noConfusion h
  · intro df n
    unfold addSource
    exact setCol_map_length df "Source" (fun _ => some (Value.str n))
  · intro dfs
    unfold concatDF
    have hfg : (List.length ∘ fun df : DataFrame =>
          List.map (reindexRow (unionCols dfs) df) df.rows)
        = fun d : DataFrame => d.rows.length := by
      funext d
      simp
    rw [flatten_length_sum, List.map_map, hfg]

/-- Witness for the amended C5, on a two-row csv table (one blank row)
and a one-row xlsx table. -/
theorem pipeline_row_counts_witness :
    c5OutCsv.rows.length + (c5InCsv.rows.filter isBlankRow).length = c5InCsv.rows.length
    ∧ c5OutX.rows.length = c5InX.rows.length :=
  ⟨pipeline_row_counts.1 "a.csv" c5InCsv c5OutCsv rfl,
   pipeline_row_counts.2.1 "a.xlsx" c5InX c5OutX rfl⟩

/-- C6: in every processed frame, a row whose "Amount" cell holds the
number `q` has "Type Classification" equal to "Income" iff `q > 0`, and
equal to "Expense" whenever `q ≤ 0` (including zero). -/
theorem classification_sign_invariant (df : DataFrame) (hwf : DataFrame.WF df)
    (r' : List Cell) (hr' : r' ∈ (process_data df).rows) (q : Rat)
    (hq : getCellR (process_data df) r' "Amount" = some (Value.num q)) :
    (getCellR (process_data df) r' "Type Classification" = some (Value.str "Income") ↔ 0 < q)
    ∧ (q ≤ 0 →
        getCellR (process_data df) r' "Type Classification" = some (Value.str "Expense")) := by
  have hwf4 : (pdCat (pdMonth (pdDate (pdFilter df)))).WF := pd_chain_wf df hwf
  have hpd : process_data df
      = setCol (pdCat (pdMonth (pdDate (pdFilter df)))) "Type Classification"
          ((pdCat (pdMonth (pdDate (pdFilter df)))).rows.map (fun r =>
            some (Value.str (pyClassify
              (getCellR (pdCat (pdMonth (pdDate (pdFilter df)))) r "Amount"))))) := rfl
  rw [hpd] at hr' hq ⊢
  obtain ⟨r, hr, htc, hother⟩ :=
    setCol_map_mem (pdCat (pdMonth (pdDate (pdFilter df)))) "Type Classification" _ hwf4 r' hr'
  rw [hother "Amount" (by decide)] at hq
  rw [hq] at htc
  rw [htc]
  by_cases hpos : 0 < q
  · have hcls : pyClassify (some (Value.num q)) = "Income" := by
      simp [pyClassify, cellPos, hpos]
    rw [hcls]
    exact ⟨⟨fun _ => hpos, fun _ => rfl⟩, fun hle => absurd hpos (not_lt.mpr hle)⟩
  · have hcls : pyClassify (some (Value.num q)) = "Expense" := by
      simp [pyClassify, cellPos, hpos]
    rw [hcls]
    constructor
    · constructor
      · intro he
        simp at he
      · intro h0
        exact absurd h0 hpos
    · intro _
      rfl

/-- Witness for C6 on a one-row frame with amount 5. -/
theorem classification_sign_invariant_witness :
    (getCellR (process_data c6Df) c6Row "Type Classification" = some (Value.str "Income")
      ↔ 0 < (5 : Rat))
    ∧ ((5 : Rat) ≤ 0 →
        getCellR (process_data c6Df) c6Row "Type Classification" = some (Value.str "Expense")) :=
  classification_sign_invariant c6Df
    (by decide : ∀ r ∈ c6Df.rows, r.length = c6Df.columns.length)
    c6Row (by decide) 5 (by decide)

/-- C7: a file missing required columns for its shape is rejected with a
diagnostic naming the file and exactly the missing columns; the loaders
return the diagnostic rather than raising; the rejected file changes
nothing else about the batch result; and if any remaining file loads, the
batch still produces output. -/
theorem missing_column_diagnostics :
    (∀ (n : String) (t : DataFrame), missingXlsxCols t ≠ [] →
        load_xlsx n t = Except.error ⟨n, missingXlsxCols t⟩)
    ∧ (∀ (n : String) (t : DataFrame), missingCsvCols t ≠ [] →
        load_csv n t = Except.error ⟨n, missingCsvCols t⟩)
    ∧ (∀ (pre post : List UFile) (f : UFile) (d : Diag),
        loadFile f = some (Except.error d) →
        d ∈ (load_and_process_files (pre ++ f :: post)).1
        ∧ (load_and_process_files (pre ++ f :: post)).2
            = (load_and_process_files (pre ++ post)).2
        ∧ ((pre ++ post).any loadSuccess = true →
            ((load_and_process_files (pre ++ f :: post)).2).isSome = true)) := by
  refine ⟨?_, ?_, ?_⟩
  · intro n t h
    unfold load_xlsx
    rw [if_neg (fun hc => h (List.isEmpty_iff.mp hc))]
  · intro n t h
    unfold load_csv
    rw [if_neg (fun hc => h (List.isEmpty_iff.mp hc))]
  · intro pre post f d h
    obtain ⟨h2, h1⟩ := loadAll_erase_error pre post f d h
    refine ⟨h1, ?_, ?_⟩
    · unfold load_and_process_files
      rw [h2]
    · intro hany
      obtain ⟨g, hg, hgs⟩ := List.any_eq_true.mp hany
      have hne := loadAll_snd_ne_nil (pre ++ post) g hg hgs
      unfold load_and_process_files
      rw [h2, if_neg (fun hc => hne (List.isEmpty_iff.mp hc))]
      rfl

/-- Witness for C7: a good csv file plus an xlsx file lacking "Amount".
The diagnostic names the file and column, the bad file is dropped from
the batch, and the good file still produces output. -/
theorem missing_column_diagnostics_witness :
    load_xlsx "b.xlsx" c7BadX.table = Except.error ⟨"b.xlsx", ["Amount"]⟩
    ∧ Diag.mk "b.xlsx" ["Amount"] ∈ (load_and_process_files [c7GoodCsv, c7BadX]).1
    ∧ (load_and_process_files [c7GoodCsv, c7BadX]).2
        = (load_and_process_files [c7GoodCsv]).2
    ∧ ((load_and_process_files [c7GoodCsv, c7BadX]).2).isSome = true := by
  have h3 := missing_column_diagnostics.2.2 [c7GoodCsv] [] c7BadX ⟨"b.xlsx", ["Amount"]⟩ rfl
  exact ⟨missing_column_diagnostics.1 "b.xlsx" c7BadX.table (by decide),
    h3.1, h3.2.1, h3.2.2 (by decide)⟩

/-- C8 counterexample: an upload consisting of one unsupported file loads
zero frames and yields an empty result, but the UI outcome is not the
upload prompt (the `st.info` prompt is shown only when no files were
uploaded at all): nothing further is rendered. -/
theorem empty_batch_counterexample :
    (loadAll [txtOnlyFile]).2 = []
    ∧ (load_and_process_files [txtOnlyFile]).2 = none
    ∧ renderOutcome [txtOnlyFile] ≠ AppView.promptToUpload := by decide

/-- C8 amended: a batch with zero successfully loaded files yields `None`
(an empty result, not an exception) and the dashboard is not rendered;
but the "please upload" info prompt appears only for an empty upload
list, so an all-rejected upload renders nothing beyond its per-file
diagnostics. -/
theorem empty_batch_behaviour :
    (∀ (files : List UFile), (loadAll files).2 = [] →
        (load_and_process_files files).2 = none)
    ∧ (∀ (files : List UFile), files ≠ [] → (loadAll files).2 = [] →
        renderOutcome files = AppView.blank)
    ∧ renderOutcome [] = AppView.promptToUpload := by
  refine ⟨?_, ?_, rfl⟩
  · intro files h
    simp [load_and_process_files, h]
  · intro files hne h
    have hnone : (load_and_process_files files).2 = none := by
      simp [load_and_process_files, h]
    unfold renderOutcome
    rw [if_neg (fun hc => hne (List.isEmpty_iff.mp hc)), hnone]

/-- Witness for the amended C8 on the unsupported-file upload. -/
theorem empty_batch_behaviour_witness :
    (load_and_process_files [txtOnlyFile]).2 = none
    ∧ renderOutcome [txtOnlyFile] = AppView.blank :=
  ⟨empty_batch_behaviour.1 [txtOnlyFile] rfl,
   empty_batch_behaviour.2.1 [txtOnlyFile] (by decide) rfl⟩

end FinanceTracker
